import Mathlib

/-!
Verification of the audio concatenation core of `streamstofiles`
(`src/streamstofiles/concatenator.py`, class `AudioConcatenator`).

The embedding models:
* `_format_timestamp`     → `format_timestamp`
* `_calculate_timestamps` → `calculate_timestamps`
* `_create_concat_list`   → `create_concat_list` (the manifest text written for ffmpeg)
* `concatenate_files`     → `concatenate_files` (filesystem / subprocess effects are
  modelled as an explicit event trace; the external muxer's outcome is a parameter)
* `concatenate_files_randomized` → `concatenate_files_randomized` (the library call
  `random.shuffle` on a copied list is modelled as applying an arbitrary
  permutation of positions to the list)
* `generate_track_listing` → `generate_track_listing` (the ambient clock read
  `datetime.now().strftime(...)` is modelled as an explicit `now` string parameter)
-/

/-- One input dictionary of `file_list`: the code reads the keys `path`
(`file_info["path"]`, assumed present, here already rendered as an absolute
path string), `title` (`file_info.get("title", "Unknown")`) and `duration`
(`file_info.get("duration", 0)`); the latter two may be missing. -/
structure FileInfo where
  path : String
  title : Option String
  duration : Option Nat
deriving DecidableEq, Repr

/-- One timestamp dictionary produced by `_calculate_timestamps`
(keys `track_number`, `title`, `start`, `end`, `start_formatted`,
`end_formatted`, `duration`; the Python key `end` is `end_` here). -/
structure TimestampEntry where
  track_number : Nat
  title : String
  start : Nat
  end_ : Nat
  start_formatted : String
  end_formatted : String
  duration : Nat
deriving DecidableEq, Repr

/-- Zero-padded rendering of one field of the `f"{x:02d}"` format used by
`_format_timestamp`: minimum width two, left-padded with `0`. -/
def pad2 (n : Nat) : String :=
  if n < 10 then "0" ++ toString n else toString n

/-- Embedding of `AudioConcatenator._format_timestamp` (lines 108-122):
`hours = seconds // 3600; minutes = (seconds % 3600) // 60; secs = seconds % 60;
return f"{hours:02d}:{minutes:02d}:{secs:02d}"`. -/
def format_timestamp (seconds : Nat) : String :=
  pad2 (seconds / 3600) ++ ":" ++ pad2 (seconds % 3600 / 60) ++ ":" ++ pad2 (seconds % 60)

/-- Embedding of the loop body of `AudioConcatenator._calculate_timestamps`
(lines 86-106): `idx` is the 1-based `enumerate` counter, `current_time` the
running cursor. -/
def calculate_timestamps_aux : Nat → Nat → List FileInfo → List TimestampEntry
  | _, _, [] => []
  | idx, current_time, file_info :: rest =>
    let duration := file_info.duration.getD 0
    let start_time := current_time
    let end_time := current_time + duration
    { track_number := idx
      title := file_info.title.getD "Unknown"
      start := start_time
      end_ := end_time
      start_formatted := format_timestamp start_time
      end_formatted := format_timestamp end_time
      duration := duration } :: calculate_timestamps_aux (idx + 1) end_time rest

/-- Embedding of `AudioConcatenator._calculate_timestamps`: enumeration starts
at 1 and the cursor at 0. -/
def calculate_timestamps (file_list : List FileInfo) : List TimestampEntry :=
  calculate_timestamps_aux 1 0 file_list

/-- The total duration reported by `concatenate_files` (line 72):
`timestamps[-1]["end"] if timestamps else 0`. -/
def reported_total (timestamps : List TimestampEntry) : Nat :=
  match timestamps.getLast? with
  | some e => e.end_
  | none => 0

/-- Duration actually used for a track: `file_info.get("duration", 0)`. -/
def durAt (f : FileInfo) : Nat :=
  f.duration.getD 0

/-- Sum of the durations (with missing durations read as 0) of a track list. -/
def sumDur (l : List FileInfo) : Nat :=
  (l.map durAt).sum

/-- The entry `_calculate_timestamps` emits for a track `f` at 1-based
position `pos` when the running cursor is `cur` (specification-side
restatement of the loop body, used to characterise `calculate_timestamps`). -/
def entryFor (pos cur : Nat) (f : FileInfo) : TimestampEntry :=
  { track_number := pos
    title := f.title.getD "Unknown"
    start := cur
    end_ := cur + durAt f
    start_formatted := format_timestamp cur
    end_formatted := format_timestamp (cur + durAt f)
    duration := durAt f }

lemma sumDur_nil : sumDur [] = 0 := rfl

lemma sumDur_cons (f : FileInfo) (l : List FileInfo) :
    sumDur (f :: l) = durAt f + sumDur l := by
  simp [sumDur]

lemma calculate_timestamps_aux_getElem? (l : List FileInfo) (idx cur i : Nat) :
    (calculate_timestamps_aux idx cur l)[i]? =
      l[i]?.map (fun f => entryFor (idx + i) (cur + sumDur (l.take i)) f) := by
  induction l generalizing idx cur i with
  | nil => simp [calculate_timestamps_aux]
  | cons f rest ih =>
    cases i with
    | zero =>
      simp [calculate_timestamps_aux, entryFor, sumDur, durAt]
    | succ i =>
      have h := ih (idx + 1) (cur + durAt f) i
      simp only [durAt] at h
      simp only [calculate_timestamps_aux, List.getElem?_cons_succ, h,
        List.take_succ_cons, sumDur_cons, durAt]
      apply congrFun
      apply congrArg
      funext g
      have h1 : idx + 1 + i = idx + (i + 1) := by omega
      have h2 : cur + f.duration.getD 0 + sumDur (List.take i rest) =
          cur + (f.duration.getD 0 + sumDur (List.take i rest)) := by omega
      rw [h1, h2]

lemma calculate_timestamps_getElem? (l : List FileInfo) (i : Nat) :
    (calculate_timestamps l)[i]? =
      l[i]?.map (fun f => entryFor (i + 1) (sumDur (l.take i)) f) := by
  have h := calculate_timestamps_aux_getElem? l 1 0 i
  simpa [calculate_timestamps, Nat.add_comm] using h

lemma calculate_timestamps_length (l : List FileInfo) :
    (calculate_timestamps l).length = l.length := by
  have : ∀ idx cur, (calculate_timestamps_aux idx cur l).length = l.length := by
    induction l with
    | nil => intro idx cur; rfl
    | cons f rest ih =>
      intro idx cur
      simp [calculate_timestamps_aux, ih]
  exact this 1 0

/-- Embedding of the single-quote escaping of `_create_concat_list` (line 137):
`str(file_path.absolute()).replace("'", "'\\''")` (the `path` field already
holds the absolute path string). -/
def escape_single_quotes (s : String) : String :=
  s.replace "\x27" "\x27\\\x27\x27"

/-- One line of the ffmpeg concat manifest (line 138): `f"file '{abs_path}'"`. -/
def concatListLine (f : FileInfo) : String :=
  "file \x27" ++ escape_single_quotes f.path ++ "\x27"

/-- Embedding of `AudioConcatenator._create_concat_list` (lines 124-140): the
text written to the manifest file, `"\n".join(lines)` over one line per track
in the order of `file_list`. -/
def create_concat_list (file_list : List FileInfo) : String :=
  String.intercalate "\n" (file_list.map concatListLine)

/-- Outcome of the single `subprocess.run(["ffmpeg", ...])` call: its exit
status and captured stdout/stderr (`capture_output=True, text=True`). -/
structure MuxerResult where
  exitCode : Nat
  stdout : String
  stderr : String
deriving DecidableEq, Repr

/-- Errors raised by the concatenation entry points: `ValueError("No files to
concatenate")` on empty input, and `subprocess.CalledProcessError` (with the
captured stdout and stderr of the muxer) when ffmpeg exits non-zero. -/
inductive ConcatError where
  | emptyInput : ConcatError
  | muxerError : String → String → ConcatError
deriving DecidableEq, Repr

/-- The dictionary returned by `concatenate_files` (lines 69-73): keys
`path`, `timestamps`, `total_duration`. -/
structure ConcatInfo where
  path : String
  timestamps : List TimestampEntry
  total_duration : Nat
deriving DecidableEq, Repr

/-- Filesystem / subprocess events performed by `concatenate_files`, in
program order: writing the concat manifest next to the output, invoking
ffmpeg on that manifest, renaming the temporary output into place, and
unlinking the manifest in the `finally` block. -/
inductive FsEvent where
  | writeManifest : String → FsEvent
  | invokeMuxer : String → FsEvent
  | renameOutput : String → FsEvent
  | deleteManifest : FsEvent
deriving DecidableEq, Repr

/-- Whether the manifest file exists after a trace of events (absent
initially; created by `writeManifest`, removed by `deleteManifest`). -/
def manifestPresent (events : List FsEvent) : Bool :=
  events.foldl
    (fun b e =>
      match e with
      | FsEvent.writeManifest _ => true
      | FsEvent.deleteManifest => false
      | _ => b)
    false

/-- Number of muxer invocations in a trace of events. -/
def muxerCalls (events : List FsEvent) : Nat :=
  events.countP
    (fun e =>
      match e with
      | FsEvent.invokeMuxer _ => true
      | _ => false)

/-- Embedding of `AudioConcatenator.concatenate_files` (lines 13-73).
`muxer` is the outcome of the one external ffmpeg run. Returns the result
(or the raised error) together with the trace of filesystem / subprocess
events: on empty input the `ValueError` is raised before any file is
touched; otherwise the manifest is written, ffmpeg runs once on it
(`check=True` raises on a non-zero exit), on success the temporary output is
renamed into place, and the `finally` block deletes the manifest on both
paths. -/
def concatenate_files (file_list : List FileInfo) (output_path : String)
    (muxer : MuxerResult) : Except ConcatError ConcatInfo × List FsEvent :=
  if file_list.isEmpty then
    (Except.error ConcatError.emptyInput, [])
  else
    let timestamps := calculate_timestamps file_list
    let manifest := create_concat_list file_list
    if muxer.exitCode = 0 then
      (Except.ok
        { path := output_path
          timestamps := timestamps
          total_duration := reported_total timestamps },
       [FsEvent.writeManifest manifest, FsEvent.invokeMuxer manifest,
        FsEvent.renameOutput output_path, FsEvent.deleteManifest])
    else
      (Except.error (ConcatError.muxerError muxer.stdout muxer.stderr),
       [FsEvent.writeManifest manifest, FsEvent.invokeMuxer manifest,
        FsEvent.deleteManifest])

/-- Application of a permutation of positions to a list; models the library
call `random.shuffle(shuffled_list)` on the copy `file_list.copy()`
(lines 162-164): the RNG's effect is an arbitrary permutation `σ` of
indices, and the original list is left untouched (the code shuffles only the
copy). -/
def shuffleByPerm (l : List FileInfo) (σ : Equiv.Perm (Fin l.length)) :
    List FileInfo :=
  List.ofFn (fun i => l.get (σ i))

/-- The dictionary returned by `concatenate_files_randomized` (lines
167-172): the `concatenate_files` result plus the `shuffled_order` key. -/
structure RandomizedConcatInfo where
  base : ConcatInfo
  shuffled_order : List FileInfo
deriving DecidableEq, Repr

/-- Embedding of `AudioConcatenator.concatenate_files_randomized` (lines
142-172): rejects empty input, shuffles a copy of `file_list` (modelled by
`shuffleByPerm` with the RNG-chosen permutation `σ`), delegates to
`concatenate_files` on the shuffled list, and records the shuffled order in
the result. -/
def concatenate_files_randomized (file_list : List FileInfo)
    (σ : Equiv.Perm (Fin file_list.length)) (output_path : String)
    (muxer : MuxerResult) :
    Except ConcatError RandomizedConcatInfo × List FsEvent :=
  if file_list.isEmpty then
    (Except.error ConcatError.emptyInput, [])
  else
    let shuffled_list := shuffleByPerm file_list σ
    match concatenate_files shuffled_list output_path muxer with
    | (Except.ok result, events) =>
      (Except.ok { base := result, shuffled_order := shuffled_list }, events)
    | (Except.error e, events) => (Except.error e, events)

/-- The `"=" * 80` separator of `generate_track_listing`. -/
def bar80 : String :=
  String.mk (List.replicate 80 '=')

/-- Right-aligned width-3 rendering of `f"{n:3d}"` (line 208). -/
def fmtTrackNum (n : Nat) : String :=
  let s := toString n
  if s.length < 3 then String.mk (List.replicate (3 - s.length) ' ') ++ s else s

/-- The three lines appended for one timestamp entry by the loop of
`generate_track_listing` (lines 207-210). -/
def trackBlock (ts : TimestampEntry) : List String :=
  [fmtTrackNum ts.track_number ++ ". " ++ ts.title,
   "     [" ++ ts.start_formatted ++ " - " ++ ts.end_formatted ++ "]",
   ""]

/-- The lines built by `generate_track_listing` (lines 191-215): header (with
the playlist title, the clock reading `now`, and the formatted total
duration), then the per-entry loop appending each track block, then the
footer. -/
def trackListingLines (concat_info : ConcatInfo) (playlist_title : String)
    (now : String) : List String :=
  let header : List String :=
    [bar80, "RANDOMIZED TRACK LISTING", bar80, "",
     "Playlist: " ++ playlist_title,
     "Generated: " ++ now,
     "Total Duration: " ++ format_timestamp concat_info.total_duration, "",
     bar80, "TRACK ORDER", bar80, ""]
  let withTracks :=
    concat_info.timestamps.foldl (fun lines ts => lines ++ trackBlock ts) header
  withTracks ++ [bar80, "Generated by StreamsToFiles", bar80]

/-- Embedding of `AudioConcatenator.generate_track_listing` (lines 174-219):
the text written to the listing file, `"\n".join(lines)`. The ambient clock
read `datetime.now().strftime("%Y-%m-%d %H:%M:%S")` is the explicit
parameter `now`. -/
def generate_track_listing (concat_info : ConcatInfo)
    (playlist_title : String) (now : String) : String :=
  String.intercalate "\n" (trackListingLines concat_info playlist_title now)

lemma sumDur_append (a b : List FileInfo) :
    sumDur (a ++ b) = sumDur a + sumDur b := by
  simp [sumDur]

lemma sumDur_take_succ (l : List FileInfo) (i : Nat) (f : FileInfo)
    (h : l[i]? = some f) :
    sumDur (l.take (i + 1)) = sumDur (l.take i) + durAt f := by
  rw [List.take_succ, h, sumDur_append]
  rfl

lemma calculate_timestamps_some (l : List FileInfo) (i : Nat) (f : FileInfo)
    (h : l[i]? = some f) :
    (calculate_timestamps l)[i]? =
      some (entryFor (i + 1) (sumDur (l.take i)) f) := by
  rw [calculate_timestamps_getElem?, h]
  rfl

lemma calculate_timestamps_some_inv (l : List FileInfo) (i : Nat)
    (e : TimestampEntry) (h : (calculate_timestamps l)[i]? = some e) :
    ∃ f, l[i]? = some f ∧ e = entryFor (i + 1) (sumDur (l.take i)) f := by
  rw [calculate_timestamps_getElem?] at h
  cases hf : l[i]? with
  | none => rw [hf] at h; simp at h
  | some f =>
    rw [hf] at h
    simp at h
    exact ⟨f, rfl, h.symm⟩

lemma reported_total_eq_sumDur (l : List FileInfo) :
    reported_total (calculate_timestamps l) = sumDur l := by
  by_cases h : l = []
  · subst h; rfl
  · have hn : 0 < l.length := List.length_pos.2 h
    have hlt : l.length - 1 < l.length := by omega
    have hf : l[l.length - 1]? = some (l.get ⟨l.length - 1, hlt⟩) := by
      simp [List.getElem?_eq_getElem hlt]
    have hts := calculate_timestamps_some l (l.length - 1) _ hf
    have hlen := calculate_timestamps_length l
    have hgl : (calculate_timestamps l).getLast? =
        some (entryFor (l.length - 1 + 1) (sumDur (l.take (l.length - 1)))
          (l.get ⟨l.length - 1, hlt⟩)) := by
      rw [List.getLast?_eq_getElem? , hlen]
      exact hts
    have hsucc := sumDur_take_succ l (l.length - 1) _ hf
    have h1 : l.length - 1 + 1 = l.length := by omega
    rw [h1] at hsucc
    have htake : l.take l.length = l := List.take_length l
    rw [htake] at hsucc
    simp only [reported_total, hgl, entryFor]
    omega

/-- C1: the Timestamp Calculator, iterating in the given order with a running
cursor starting at 0, yields one entry per track with position `i + 1`, start
equal to the cursor (the sum of the preceding durations), end equal to cursor
plus that track's duration; each next entry's start equals the previous
entry's end; the first entry's start is 0; the reported total duration (the
last entry's end) equals the sum of all durations; and on the empty sequence
it returns an empty entry list with total duration 0. -/
theorem C1_timestamp_calculator (l : List FileInfo) :
    (calculate_timestamps l).length = l.length
    ∧ (∀ i f e, l[i]? = some f → (calculate_timestamps l)[i]? = some e →
        e.track_number = i + 1 ∧ e.start = sumDur (l.take i)
          ∧ e.end_ = e.start + durAt f)
    ∧ (∀ i e e2, (calculate_timestamps l)[i]? = some e →
        (calculate_timestamps l)[i + 1]? = some e2 → e2.start = e.end_)
    ∧ (∀ e, (calculate_timestamps l)[0]? = some e → e.start = 0)
    ∧ reported_total (calculate_timestamps l) = sumDur l
    ∧ calculate_timestamps [] = []
    ∧ reported_total (calculate_timestamps []) = 0 := by
  refine ⟨calculate_timestamps_length l, ?_, ?_, ?_, reported_total_eq_sumDur l, rfl, rfl⟩
  · intro i f e hf he
    rw [calculate_timestamps_some l i f hf] at he
    cases he
    simp [entryFor]
  · intro i e e2 he he2
    obtain ⟨f, hf, hef⟩ := calculate_timestamps_some_inv l i e he
    obtain ⟨f2, hf2, hef2⟩ := calculate_timestamps_some_inv l (i + 1) e2 he2
    subst hef
    subst hef2
    simp only [entryFor]
    exact sumDur_take_succ l i f hf
  · intro e he
    obtain ⟨f, hf, hef⟩ := calculate_timestamps_some_inv l 0 e he
    subst hef
    simp [entryFor, sumDur]

/-- Demo tracks used by the concrete instantiations below: the spec's
end-to-end scenario A(120s), B(90s), C(200s). -/
def demoA : FileInfo := { path := "/music/a.mp3", title := some "A", duration := some 120 }

/-- Second demo track. -/
def demoB : FileInfo := { path := "/music/b.mp3", title := some "B", duration := some 90 }

/-- Third demo track. -/
def demoC : FileInfo := { path := "/music/c.mp3", title := some "C", duration := some 200 }

/-- The demo track list. -/
def demoTracks : List FileInfo := [demoA, demoB, demoC]

/-- The entry computed for the first demo track. -/
def demoEntryA : TimestampEntry :=
  { track_number := 1, title := "A", start := 0, end_ := 120,
    start_formatted := "00:00:00", end_formatted := "00:02:00", duration := 120 }

/-- The entry computed for the second demo track. -/
def demoEntryB : TimestampEntry :=
  { track_number := 2, title := "B", start := 120, end_ := 210,
    start_formatted := "00:02:00", end_formatted := "00:03:30", duration := 90 }

/-- The entry computed for the third demo track. -/
def demoEntryC : TimestampEntry :=
  { track_number := 3, title := "C", start := 210, end_ := 410,
    start_formatted := "00:03:30", end_formatted := "00:06:50", duration := 200 }

lemma pad2_length_two (m : Nat) (hm : m < 100) : (pad2 m).length = 2 := by
  interval_cases m <;> rfl

/-- C4: `_format_timestamp` maps a non-negative number of seconds to an
"HH:MM:SS" string: the three example values of the spec hold, and in general
the output is hours, minutes and seconds fields joined by `:`, where the
minute and second fields are two-digit zero-padded and the hour count is
unbounded (rendered at its natural width once it exceeds two digits). -/
theorem C4_format_duration :
    format_timestamp 0 = "00:00:00"
    ∧ format_timestamp 3661 = "01:01:01"
    ∧ format_timestamp 360000 = "100:00:00"
    ∧ ∀ n : Nat, ∃ h m s : Nat, n = h * 3600 + m * 60 + s ∧ m < 60 ∧ s < 60
        ∧ format_timestamp n = pad2 h ++ ":" ++ pad2 m ++ ":" ++ pad2 s
        ∧ (pad2 m).length = 2 ∧ (pad2 s).length = 2 := by
  refine ⟨by decide, by decide, by decide, ?_⟩
  intro n
  refine ⟨n / 3600, n % 3600 / 60, n % 60, ?_, ?_, ?_, rfl, ?_, ?_⟩
  · omega
  · omega
  · omega
  · exact pad2_length_two _ (by omega)
  · exact pad2_length_two _ (by omega)

/-- C5: both concatenation entry points raise the empty-input `ValueError`
on an empty track list, and the event trace is empty — no manifest is
written, no muxer runs, and no output file is produced. -/
theorem C5_empty_input (output_path : String) (muxer : MuxerResult)
    (σ : Equiv.Perm (Fin ([] : List FileInfo).length)) :
    concatenate_files [] output_path muxer =
      (Except.error ConcatError.emptyInput, [])
    ∧ concatenate_files_randomized [] σ output_path muxer =
      (Except.error ConcatError.emptyInput, []) :=
  ⟨rfl, rfl⟩

lemma concatenate_files_manifestPresent (l : List FileInfo) (p : String)
    (m : MuxerResult) :
    manifestPresent (concatenate_files l p m).2 = false := by
  unfold concatenate_files
  by_cases h : l.isEmpty <;> by_cases h2 : m.exitCode = 0 <;>
    simp [h, h2, manifestPresent]

lemma concatenate_files_randomized_manifestPresent (l : List FileInfo)
    (σ : Equiv.Perm (Fin l.length)) (p : String) (m : MuxerResult) :
    manifestPresent (concatenate_files_randomized l σ p m).2 = false := by
  have hbase := concatenate_files_manifestPresent (shuffleByPerm l σ) p m
  unfold concatenate_files_randomized
  by_cases h : l.isEmpty
  · simp [h, manifestPresent]
  · simp only [h, Bool.false_eq_true, if_false]
    rcases hc : concatenate_files (shuffleByPerm l σ) p m with ⟨res, events⟩
    rw [hc] at hbase
    cases res <;> simpa using hbase

/-- C6: after either concatenation entry point returns — success, muxer
failure, or empty input — the temporary concat manifest file no longer
exists (the `finally` block unlinks it on every path on which it was
created). -/
theorem C6_manifest_cleanup (l : List FileInfo)
    (σ : Equiv.Perm (Fin l.length)) (p : String) (m : MuxerResult) :
    manifestPresent (concatenate_files l p m).2 = false
    ∧ manifestPresent (concatenate_files_randomized l σ p m).2 = false :=
  ⟨concatenate_files_manifestPresent l p m,
   concatenate_files_randomized_manifestPresent l σ p m⟩

/-- C8: when the muxer exits non-zero on a non-empty track list, the call
fails with the muxer error carrying the captured stdout and stderr, and the
muxer was invoked exactly once (no automatic retry). -/
theorem C8_muxer_failure (l : List FileInfo) (p : String) (m : MuxerResult)
    (hne : l ≠ []) (hexit : m.exitCode ≠ 0) :
    (concatenate_files l p m).1 =
      Except.error (ConcatError.muxerError m.stdout m.stderr)
    ∧ muxerCalls (concatenate_files l p m).2 = 1 := by
  have hb : l.isEmpty = false := by
    simpa [List.isEmpty_iff] using hne
  unfold concatenate_files
  simp [hb, hexit, muxerCalls]

/-- Muxer outcome for a successful ffmpeg run. -/
def okMuxer : MuxerResult := { exitCode := 0, stdout := "", stderr := "" }

/-- Muxer outcome for a failing ffmpeg run with captured diagnostics. -/
def failMuxer : MuxerResult :=
  { exitCode := 1, stdout := "boom-out", stderr := "boom-err" }

/-- Witness for C8 at the demo list and a concrete failing muxer outcome. -/
theorem C8_muxer_failure_witness :
    (concatenate_files demoTracks "/out.mp3" failMuxer).1 =
      Except.error (ConcatError.muxerError failMuxer.stdout failMuxer.stderr)
    ∧ muxerCalls (concatenate_files demoTracks "/out.mp3" failMuxer).2 = 1 :=
  C8_muxer_failure demoTracks "/out.mp3" failMuxer (by decide) (by decide)

/-- Witness for C1 at the concrete demo list: the second entry's fields, the
chain step from entry 2 to entry 3, and the first entry's zero start. -/
theorem C1_timestamp_calculator_witness :
    (demoEntryB.track_number = 1 + 1 ∧ demoEntryB.start = sumDur (demoTracks.take 1)
      ∧ demoEntryB.end_ = demoEntryB.start + durAt demoB)
    ∧ demoEntryC.start = demoEntryB.end_
    ∧ demoEntryA.start = 0 := by
  obtain ⟨-, h2, h3, h4, -, -, -⟩ := C1_timestamp_calculator demoTracks
  exact ⟨h2 1 demoB demoEntryB (by decide) (by decide),
    h3 1 demoEntryB demoEntryC (by decide) (by decide),
    h4 demoEntryA (by decide)⟩

lemma concatenate_files_ok (l : List FileInfo) (p : String) (m : MuxerResult)
    (r : ConcatInfo) (h : (concatenate_files l p m).1 = Except.ok r) :
    r = { path := p, timestamps := calculate_timestamps l,
          total_duration := reported_total (calculate_timestamps l) }
    ∧ l ≠ [] ∧ m.exitCode = 0 := by
  unfold concatenate_files at h
  by_cases hb : l.isEmpty
  · simp [hb] at h
  · by_cases he : m.exitCode = 0
    · simp [hb, he] at h
      exact ⟨h.symm, by simpa [List.isEmpty_iff] using hb, he⟩
    · simp [hb, he] at h

lemma concatenate_files_randomized_ok (l : List FileInfo)
    (σ : Equiv.Perm (Fin l.length)) (p : String) (m : MuxerResult)
    (r : RandomizedConcatInfo)
    (h : (concatenate_files_randomized l σ p m).1 = Except.ok r) :
    r.shuffled_order = shuffleByPerm l σ
    ∧ r.base.path = p
    ∧ r.base.timestamps = calculate_timestamps (shuffleByPerm l σ)
    ∧ r.base.total_duration =
        reported_total (calculate_timestamps (shuffleByPerm l σ)) := by
  unfold concatenate_files_randomized at h
  by_cases hb : l.isEmpty
  · simp [hb] at h
  · simp only [hb, Bool.false_eq_true, if_false] at h
    rcases hc : concatenate_files (shuffleByPerm l σ) p m with ⟨res, events⟩
    rw [hc] at h
    cases res with
    | error e => simp at h
    | ok result =>
      simp only [Except.ok.injEq] at h
      obtain ⟨hres, -, -⟩ :=
        concatenate_files_ok (shuffleByPerm l σ) p m result (by rw [hc])
      subst h
      rw [hres]
      exact ⟨rfl, rfl, rfl, rfl⟩

/-- C2: for every successful concatenation result, sequential or randomized,
the number of timestamp entries equals the number of tracks in the order
actually used (the input order for `concatenate_files`, the recorded
`shuffled_order` for `concatenate_files_randomized`), entries are
positionally aligned with that order, the i-th entry's duration equals the
i-th track's duration, and each entry's duration equals its end minus its
start. -/
theorem C2_result_alignment :
    (∀ (l : List FileInfo) (p : String) (m : MuxerResult) (r : ConcatInfo),
      (concatenate_files l p m).1 = Except.ok r →
        r.timestamps.length = l.length
        ∧ ∀ (i : Nat) (f : FileInfo) (e : TimestampEntry),
            l[i]? = some f → r.timestamps[i]? = some e →
            e.duration = durAt f ∧ e.duration = e.end_ - e.start)
    ∧ (∀ (l : List FileInfo) (σ : Equiv.Perm (Fin l.length)) (p : String)
        (m : MuxerResult) (r : RandomizedConcatInfo),
      (concatenate_files_randomized l σ p m).1 = Except.ok r →
        r.base.timestamps.length = r.shuffled_order.length
        ∧ ∀ (i : Nat) (f : FileInfo) (e : TimestampEntry),
            r.shuffled_order[i]? = some f →
            r.base.timestamps[i]? = some e →
            e.duration = durAt f ∧ e.duration = e.end_ - e.start) := by
  constructor
  · intro l p m r h
    obtain ⟨hr, -, -⟩ := concatenate_files_ok l p m r h
    have hts : r.timestamps = calculate_timestamps l := by rw [hr]
    rw [hts]
    refine ⟨calculate_timestamps_length l, ?_⟩
    intro i f e hf he
    rw [calculate_timestamps_some l i f hf] at he
    cases he
    constructor
    · rfl
    · simp [entryFor]
  · intro l σ p m r h
    obtain ⟨hso, -, hts, -⟩ := concatenate_files_randomized_ok l σ p m r h
    rw [hts, hso]
    refine ⟨calculate_timestamps_length _, ?_⟩
    intro i f e hf he
    rw [calculate_timestamps_some _ i f hf] at he
    cases he
    constructor
    · rfl
    · simp [entryFor]

/-- Sequential concatenation result on the demo tracks. -/
def demoResult : ConcatInfo :=
  { path := "/out.mp3", timestamps := [demoEntryA, demoEntryB, demoEntryC],
    total_duration := 410 }

/-- Witness for C2 at the demo tracks with a succeeding muxer. -/
theorem C2_result_alignment_witness :
    demoResult.timestamps.length = demoTracks.length
    ∧ demoEntryB.duration = durAt demoB
    ∧ demoEntryB.duration = demoEntryB.end_ - demoEntryB.start := by
  have h := C2_result_alignment.1 demoTracks "/out.mp3" okMuxer demoResult rfl
  exact ⟨h.1, h.2 1 demoB demoEntryB (by decide) (by decide)⟩

lemma shuffleByPerm_perm (l : List FileInfo) (σ : Equiv.Perm (Fin l.length)) :
    List.Perm (shuffleByPerm l σ) l := by
  have h := Equiv.Perm.ofFn_comp_perm σ l.get
  have h2 : List.ofFn l.get = l := List.ofFn_get l
  rw [h2] at h
  exact h

/-- C3: randomized planning shuffles a copy of the track list — modelled as
applying the RNG-chosen permutation of positions — so the produced order is
a permutation of the input (same multiset, same length), the recorded
`shuffled_order` of a successful call is such a permutation, and the
caller's input list itself is never mutated (the embedding builds a new
list from `l`; `l` is untouched). -/
theorem C3_randomized_permutation (l : List FileInfo)
    (σ : Equiv.Perm (Fin l.length)) (p : String) (m : MuxerResult) :
    List.Perm (shuffleByPerm l σ) l
    ∧ (shuffleByPerm l σ).length = l.length
    ∧ (∀ r, (concatenate_files_randomized l σ p m).1 = Except.ok r →
        List.Perm r.shuffled_order l ∧ r.shuffled_order.length = l.length) := by
  have hperm := shuffleByPerm_perm l σ
  refine ⟨hperm, hperm.length_eq, ?_⟩
  intro r h
  obtain ⟨hso, -, -, -⟩ := concatenate_files_randomized_ok l σ p m r h
  rw [hso]
  exact ⟨hperm, hperm.length_eq⟩

/-- Randomized concatenation result on the demo tracks under the identity
permutation. -/
def demoRandResult : RandomizedConcatInfo :=
  { base := demoResult, shuffled_order := demoTracks }

/-- Witness for C3 at the demo tracks with the identity permutation and a
succeeding muxer. -/
theorem C3_randomized_permutation_witness :
    List.Perm demoRandResult.shuffled_order demoTracks
    ∧ demoRandResult.shuffled_order.length = demoTracks.length := by
  have h := (C3_randomized_permutation demoTracks (Equiv.refl _) "/out.mp3"
    okMuxer).2.2 demoRandResult rfl
  exact h

/-- C7: sequential planning uses the input track list itself, unchanged: a
successful result's timestamps are exactly those calculated over the input
order (entry i describes track i), the manifest handed to the muxer is
generated from the input list in its given order, and the embedding, being
pure, leaves the caller's list untouched. -/
theorem C7_sequential_identity (l : List FileInfo) (p : String)
    (m : MuxerResult) (hne : l ≠ []) :
    (∀ r, (concatenate_files l p m).1 = Except.ok r →
        r.timestamps = calculate_timestamps l
        ∧ (∀ (i : Nat) (f : FileInfo) (e : TimestampEntry),
            l[i]? = some f → r.timestamps[i]? = some e →
            e.track_number = i + 1 ∧ e.title = f.title.getD "Unknown"
              ∧ e.duration = durAt f))
    ∧ (∀ c, FsEvent.invokeMuxer c ∈ (concatenate_files l p m).2 →
        c = create_concat_list l)
    ∧ create_concat_list l = String.intercalate "\n" (l.map concatListLine) := by
  have hb : l.isEmpty = false := by simpa [List.isEmpty_iff] using hne
  refine ⟨?_, ?_, rfl⟩
  · intro r h
    obtain ⟨hr, -, -⟩ := concatenate_files_ok l p m r h
    have hts : r.timestamps = calculate_timestamps l := by rw [hr]
    refine ⟨hts, ?_⟩
    intro i f e hf he
    rw [hts, calculate_timestamps_some l i f hf] at he
    cases he
    exact ⟨rfl, rfl, rfl⟩
  · intro c hc
    unfold concatenate_files at hc
    by_cases he : m.exitCode = 0 <;> simp [hb, he] at hc <;> exact hc

/-- Witness for C7 at the demo tracks with a succeeding muxer. -/
theorem C7_sequential_identity_witness :
    demoResult.timestamps = calculate_timestamps demoTracks
    ∧ create_concat_list demoTracks =
        String.intercalate "\n" (demoTracks.map concatListLine) := by
  have h := C7_sequential_identity demoTracks "/out.mp3" okMuxer (by decide)
  exact ⟨(h.1 demoResult rfl).1, h.2.2⟩

/-- Concatenation result with no entries, used as a small render input. -/
def emptyConcatInfo : ConcatInfo :=
  { path := "/out.mp3", timestamps := [], total_duration := 0 }

set_option maxRecDepth 8192 in
/-- Counterexample to C9 as stated: the listing text embeds the wall-clock
reading (`datetime.now()`), so two invocations of the renderer on the very
same concatenation result and playlist title, made at different times,
produce different text. -/
theorem C9_render_counterexample :
    generate_track_listing emptyConcatInfo "Mix" "2025-01-01 00:00:00"
      ≠ generate_track_listing emptyConcatInfo "Mix" "2025-01-01 00:00:01" := by
  decide

lemma foldl_append_eq_bind {α β : Type} (f : α → List β) :
    ∀ (l : List α) (init : List β),
      l.foldl (fun acc a => acc ++ f a) init = init ++ l.flatMap f := by
  intro l
  induction l with
  | nil => intro init; simp
  | cons a rest ih =>
    intro init
    simp [List.foldl_cons, ih, List.append_assoc]

/-- C9 (amended): the renderer is deterministic given the generation
timestamp — its output is a function of exactly the concatenation result,
the playlist title and the clock reading, equal to the closed form below: a
header block carrying the playlist title, the generation timestamp and the
formatted total duration, followed by one block per timestamp entry showing
the position, the title and the formatted `[start - end]` interval, in merge
order, then the footer. -/
theorem C9_render_deterministic_given_time (info : ConcatInfo)
    (title now : String) :
    generate_track_listing info title now =
      String.intercalate "\n"
        ([bar80, "RANDOMIZED TRACK LISTING", bar80, "",
          "Playlist: " ++ title,
          "Generated: " ++ now,
          "Total Duration: " ++ format_timestamp info.total_duration, "",
          bar80, "TRACK ORDER", bar80, ""]
         ++ info.timestamps.flatMap trackBlock
         ++ [bar80, "Generated by StreamsToFiles", bar80]) := by
  simp only [generate_track_listing, trackListingLines]
  rw [foldl_append_eq_bind]

lemma sumDur_split (l : List FileInfo) (i : Nat) (f : FileInfo)
    (hf : l[i]? = some f) :
    sumDur l = sumDur (l.take i) + durAt f + sumDur (l.drop (i + 1)) := by
  have hsplit : sumDur l = sumDur (l.take (i + 1)) + sumDur (l.drop (i + 1)) := by
    conv_lhs => rw [← List.take_append_drop (i + 1) l]
    rw [sumDur_append]
  rw [hsplit, sumDur_take_succ l i f hf]

/-- C10: a track whose `duration` key is missing is treated as lasting 0
seconds: an entry is still emitted for it, with end equal to start and
duration 0; the following entry (when any) starts at the same cursor value;
and the reported total duration is just the sum of the durations of the
other tracks (the track contributes nothing). -/
theorem C10_missing_duration (l : List FileInfo) (i : Nat) (f : FileInfo)
    (hf : l[i]? = some f) (hd : f.duration = none) :
    ∃ e, (calculate_timestamps l)[i]? = some e
      ∧ e.end_ = e.start ∧ e.duration = 0
      ∧ (∀ e2, (calculate_timestamps l)[i + 1]? = some e2 → e2.start = e.start)
      ∧ reported_total (calculate_timestamps l) =
          sumDur (l.take i) + sumDur (l.drop (i + 1)) := by
  have hzero : durAt f = 0 := by simp [durAt, hd]
  refine ⟨entryFor (i + 1) (sumDur (l.take i)) f,
    calculate_timestamps_some l i f hf, ?_, ?_, ?_, ?_⟩
  · simp [entryFor, hzero]
  · simp [entryFor, hzero]
  · intro e2 he2
    obtain ⟨f2, hf2, hef2⟩ := calculate_timestamps_some_inv l (i + 1) e2 he2
    subst hef2
    simp only [entryFor]
    rw [sumDur_take_succ l i f hf, hzero]
    omega
  · rw [reported_total_eq_sumDur l, sumDur_split l i f hf, hzero]
    omega

/-- Demo track with a missing duration key. -/
def demoNoDur : FileInfo := { path := "/music/x.mp3", title := some "X", duration := none }

/-- Demo track list whose middle track lacks a duration. -/
def demoTracksMissing : List FileInfo := [demoA, demoNoDur, demoC]

/-- Witness for C10 at the demo list whose middle track lacks a duration. -/
theorem C10_missing_duration_witness :
    ∃ e, (calculate_timestamps demoTracksMissing)[1]? = some e
      ∧ e.end_ = e.start ∧ e.duration = 0
      ∧ (∀ e2, (calculate_timestamps demoTracksMissing)[1 + 1]? = some e2 →
          e2.start = e.start)
      ∧ reported_total (calculate_timestamps demoTracksMissing) =
          sumDur (demoTracksMissing.take 1) + sumDur (demoTracksMissing.drop (1 + 1)) :=
  C10_missing_duration demoTracksMissing 1 demoNoDur (by decide) rfl
